import Mathlib

/-!
Verification of the multi-agent simulation scheduler and the personalized
four-question quiz API.

Part A embeds the quiz flow from `personalized-questions.py` (present in the
repository) directly.

Part B models the simulation scheduler (Orchestrator, TurnBasedStrategy,
LLMGateway rate limiter) whose implementation modules are imported by
`main.py` but are not part of the available sources; those definitions are
modelled from the specification, as marked in their doc comments.
-/

namespace Quiz

/-- Python `needle in hay` substring test, on the character lists of the
two strings. -/
def containsSub (hay needle : String) : Bool :=
  decide (needle.data <:+: hay.data)

/-- Python `str.lower()`, mapping `Char.toLower` over the characters. -/
def pyLower (s : String) : String :=
  ⟨s.data.map Char.toLower⟩

/-- Python `str.strip()`: drop whitespace from both ends. -/
def pyStrip (s : String) : String :=
  ⟨((s.data.dropWhile Char.isWhitespace).reverse.dropWhile Char.isWhitespace).reverse⟩

/-- The four keyword flags computed by `_keywords` in
`personalized-questions.py`: join the answers with spaces, lowercase, and
test substring membership. -/
structure Keywords where
  order : Bool
  disruption : Bool
  mystery : Bool
  control : Bool
deriving Repr, DecidableEq

/-- Embeds `_keywords(answers)` from `personalized-questions.py`. -/
def _keywords (answers : List String) : Keywords :=
  let text := pyLower (" ".intercalate answers)
  { order := containsSub text "order" || containsSub text "structure" ||
      containsSub text "harmony" || containsSub text "balance"
    disruption := containsSub text "disruption" || containsSub text "chaos" ||
      containsSub text "storm"
    mystery := containsSub text "mystery" || containsSub text "unknown"
    control := containsSub text "control" || containsSub text "power" ||
      containsSub text "influence" }

/-- Embeds the `last` binding of `_response_and_next`:
`(answers[-1].strip().lower() if answers else "") or "your path"`. -/
def lastAnswer (answers : List String) : String :=
  let s := match answers.getLast? with
    | none => ""
    | some a => pyLower (pyStrip a)
  if s = "" then "your path" else s

/-- Embeds `_response_and_next(question_index, answers)` from
`personalized-questions.py`: returns `(short_response, next_question_text)`. -/
def _response_and_next (question_index : Int) (answers : List String) :
    String × String :=
  let k := _keywords answers
  let last := lastAnswer answers
  if question_index = 1 then
    if k.disruption then
      (s!"You lean into change. \x27{last}\x27 suggests you value momentum over stability.",
       "What would you willing to sacrifice to keep that momentum—certainty, or connection?")
    else if k.order then
      (s!"You lean toward stability. \x27{last}\x27 suggests you value clarity and structure.",
       "How do you want others to experience that structure—through rules, or through example?")
    else if k.mystery then
      (s!"You embrace the unknown. \x27{last}\x27 suggests you\x27re comfortable without a fixed map.",
       "When things get unclear, what do you rely on more—intuition, or evidence?")
    else
      (s!"Your choice—\x27{last}\x27—sets the tone for what follows.",
       "What matters more to you right now: influence over others, or clarity over yourself?")
  else if question_index = 2 then
    if containsSub last "certainty" || containsSub last "connection" ||
        containsSub last "momentum" then
      ("That trade-off defines how you\x27ll lead—or step back.",
       "In this simulation, do you see yourself as the one making the rules, or the one testing their limits?")
    else if containsSub last "rules" || containsSub last "example" ||
        containsSub last "structure" then
      ("How you embody structure says a lot about the order you seek.",
       "When someone challenges your approach, do you refine the system, or defend it first?")
    else if containsSub last "intuition" || containsSub last "evidence" then
      ("That preference shapes how you\x27ll interpret everything that comes next.",
       "If the simulation offered you one gift—insight or power—which would you take?")
    else
      ("That distinction will matter as the simulation deepens.",
       "Do you want this experience to change how you decide, or how you relate to others?")
  else if question_index = 3 then
    if containsSub last "making the rules" || containsSub last "testing" ||
        containsSub last "limits" then
      ("Your role—architect or provocateur—is becoming clear.",
       "One last question: when this ends, what do you want to leave behind—a clear outcome, or an open question?")
    else if containsSub last "refine" || containsSub last "defend" ||
        containsSub last "system" then
      ("That reaction under pressure reveals a lot.",
       "When this ends, what matters more—that something concrete was built, or that the process was honest?")
    else if containsSub last "insight" || containsSub last "power" ||
        containsSub last "gift" then
      ("Your choice of gift aligns with what you\x27ve shown so far.",
       "At the end, would you rather have a single clear answer, or many possible ones?")
    else
      ("That direction will shape the closing of the simulation.",
       "What would make this experience feel complete for you—a result, or a new question to carry?")
  else
    (s!"Your answer—\x27{last}\x27—closes the loop. The simulation has enough to reflect your influence. Thank you for defining it.",
     "")

/-- The request body of `/next_question` after the `try` block:
either the `int(...)` / `list(...)` conversions raised (caught as a
`(TypeError, ValueError)`) or they produced a question index and an
answers list. -/
inductive ParsedRequest where
  | parseError : ParsedRequest
  | ok (question_index : Int) (answers : List String) : ParsedRequest

/-- The JSON body returned by `/next_question` on success. -/
structure NextQuestionBody where
  response : String
  next_question : String
  question_index : Int
  is_complete : Bool
deriving Repr, DecidableEq

/-- An HTTP result of the `/next_question` handler: 400 with an error
message, or 200 with a JSON body. -/
inductive HttpResult where
  | badRequest (error : String) : HttpResult
  | okJson (body : NextQuestionBody) : HttpResult
deriving Repr, DecidableEq

/-- Embeds the `/next_question` handler from `personalized-questions.py`,
after JSON-body conversion (modelled by `ParsedRequest`). -/
def next_question : ParsedRequest → HttpResult
  | .parseError => .badRequest "Invalid question_index or answers"
  | .ok question_index answers =>
    if question_index < 1 ∨ question_index > 4 then
      .badRequest "question_index must be 1–4"
    else
      let p := _response_and_next question_index answers
      .okJson { response := p.1, next_question := p.2,
                question_index := question_index,
                is_complete := question_index = 4 }

end Quiz

namespace Sim

/-- Modelled from the spec: an agent `{id, name, identity_script}` (the
`Agent` class of the configuration module is not under `src/`; `main.py`
reads exactly these three fields). -/
structure Agent where
  id : String
  name : String
  identity_script : String
deriving Repr, DecidableEq

/-- Modelled from the spec: immutable simulation parameters (the
`WorldConfig` loader module is not under `src/`). -/
structure WorldConfig where
  name : String
  agents : List Agent
  max_days : Nat
  exchanges_per_turn : Nat
  world_rules : String
deriving Repr, DecidableEq

/-- Modelled from the spec: one generated utterance or a recorded failure
placeholder. The timestamp is the logical call counter at which the turn
was produced. -/
structure Turn where
  speaker_id : String
  message : String
  failed : Bool
  timestamp : Nat
deriving Repr, DecidableEq

/-- Modelled from the spec: an ordered sequence of turns among a fixed set
of participants within one day. -/
structure Conversation where
  day : Nat
  participants : List String
  turns : List Turn
deriving Repr, DecidableEq

/-- Modelled from the spec: the single mutable aggregate of all
conversations produced so far. -/
structure WorldState where
  day : Nat
  conversations : List Conversation
  world_rules : String
deriving Repr, DecidableEq

/-- Modelled from the spec: a conversation spec `{participants,
exchange_count}` produced by an interaction strategy. -/
structure ConversationSpec where
  participants : List String
  exchange_count : Nat
deriving Repr, DecidableEq

/-- Modelled from the spec: `TurnBasedStrategy` (module
`src/interaction/turn_based.py`, not under `src/`): a pure function of
`(WorldState, day, WorldConfig)` returning the day's ordered conversation
specs. The deterministic default pairing puts all agents, in configuration
order, into one conversation capped at `exchanges_per_turn` exchanges. -/
def TurnBasedStrategy (_state : WorldState) (_day : Nat) (cfg : WorldConfig) :
    List ConversationSpec :=
  [{ participants := cfg.agents.map (·.id),
     exchange_count := cfg.exchanges_per_turn }]

/-- Modelled from the spec: the outcome of one raw call to the
text-generation capability, as classified by the LLMGateway:
success, `TransientError` (retryable) or `FatalError` (not retryable). -/
inductive GenResult where
  | success (text : String)
  | transient
  | fatal
deriving Repr, DecidableEq

/-- A generation oracle: the classified outcome of the `i`-th raw call of
the run. It stands for the external provider, so runs can be compared
under identical generation outputs. -/
def GenOracle := Nat → GenResult

/-- Modelled from the spec: what one gateway call (with retries) yields to
the Orchestrator. -/
inductive TurnResult where
  | ok (text : String)
  | failedTurn
  | fatalAbort
deriving Repr, DecidableEq

/-- Modelled from the spec: the LLMGateway retry loop. `retries` is the
remaining retry budget; on `transient` with budget left it retries, with
the budget exhausted it reports a failed turn; `fatal` propagates
immediately. Returns the result and the next raw-call index. -/
def generateWithRetry (oracle : GenOracle) (callIdx : Nat) :
    Nat → TurnResult × Nat
  | 0 =>
    match oracle callIdx with
    | .success t => (.ok t, callIdx + 1)
    | .transient => (.failedTurn, callIdx + 1)
    | .fatal => (.fatalAbort, callIdx + 1)
  | retries + 1 =>
    match oracle callIdx with
    | .success t => (.ok t, callIdx + 1)
    | .transient => generateWithRetry oracle (callIdx + 1) retries
    | .fatal => (.fatalAbort, callIdx + 1)

/-- Round-robin speaker selection inside a conversation: exchange `idx`
is spoken by participant `idx % length`. -/
def speakerAt (ps : List String) (idx : Nat) : String :=
  (ps.get? (idx % ps.length)).getD ""

/-- Result of executing one conversation spec: the finished turn list and
next call index, or a fatal abort (the partial conversation is dropped). -/
inductive ConvResult where
  | done (turns : List Turn) (nextCall : Nat)
  | fatal (nextCall : Nat)
deriving Repr, DecidableEq

/-- Modelled from the spec: execute the scheduled exchanges of one
conversation. A failed gateway turn is recorded as `failed := true` with
an empty message and the conversation continues; a fatal error aborts. -/
def runExchanges (oracle : GenOracle) (retries : Nat) (ps : List String) :
    Nat → Nat → Nat → List Turn → ConvResult
  | 0, _, callIdx, acc => .done acc.reverse callIdx
  | n + 1, idx, callIdx, acc =>
    match generateWithRetry oracle callIdx retries with
    | (.ok t, c) =>
      runExchanges oracle retries ps n (idx + 1) c
        ({ speaker_id := speakerAt ps idx, message := t,
           failed := false, timestamp := c } :: acc)
    | (.failedTurn, c) =>
      runExchanges oracle retries ps n (idx + 1) c
        ({ speaker_id := speakerAt ps idx, message := "",
           failed := true, timestamp := c } :: acc)
    | (.fatalAbort, c) => .fatal c

/-- Modelled from the spec: execute a day's conversation specs in order,
appending each completed conversation to the world state. Returns the
updated state, the next call index, and whether a fatal error occurred
(in which case the in-flight conversation is not appended). -/
def runSpecs (oracle : GenOracle) (retries : Nat) (day : Nat) :
    List ConversationSpec → WorldState → Nat → WorldState × Nat × Bool
  | [], ws, callIdx => (ws, callIdx, false)
  | spec :: rest, ws, callIdx =>
    match runExchanges oracle retries spec.participants
        spec.exchange_count 0 callIdx [] with
    | .done turns c =>
      runSpecs oracle retries day rest
        { ws with conversations := ws.conversations ++
            [{ day := day, participants := spec.participants, turns := turns }] } c
    | .fatal c => (ws, c, true)

/-- A progress hook: called with `(day, state)`; it may fail with an
error value, which the orchestrator catches. -/
def Hook := Nat → WorldState → Except String Unit

/-- Modelled from the spec: how a run ends — all days completed, or
aborted by a fatal provider error. -/
inductive RunOutcome where
  | completed
  | abortedFatal
deriving Repr, DecidableEq

/-- The final state of a run, together with the observable trace of hook
invocations (the day passed at each invocation, in call order). -/
structure RunResult where
  state : WorldState
  hookTrace : List Nat
  outcome : RunOutcome
deriving Repr, DecidableEq

/-- Helper: the trace entry appended when a day completes, depending on
whether a hook is supplied. -/
def traceStep (hook : Option Hook) (day : Nat) (trace : List Nat) : List Nat :=
  match hook with
  | none => trace
  | some _ => day :: trace

/-- Modelled from the spec: the Orchestrator day loop from `day` for
`daysLeft` more days. Each day: ask the strategy for specs, execute them,
record the day in the state, then invoke the hook if supplied — its
result is discarded (errors are caught and logged, never propagated).
A fatal error aborts immediately with the state accumulated so far,
without invoking the hook for the failing day. -/
def runFromDay (cfg : WorldConfig) (oracle : GenOracle) (retries : Nat)
    (hook : Option Hook) :
    Nat → Nat → WorldState → Nat → List Nat → RunResult
  | 0, _, ws, _, trace => { state := ws, hookTrace := trace.reverse, outcome := .completed }
  | n + 1, day, ws, callIdx, trace =>
    let specs := TurnBasedStrategy ws day cfg
    match runSpecs oracle retries day specs ws callIdx with
    | (ws1, _c, true) =>
      { state := ws1, hookTrace := trace.reverse, outcome := .abortedFatal }
    | (ws1, c, false) =>
      let ws2 : WorldState := { ws1 with day := day }
      let trace2 := match hook with
        | none => trace
        | some h =>
          let _r := h day ws2
          day :: trace
      runFromDay cfg oracle retries hook n (day + 1) ws2 c trace2

/-- Modelled from the spec: `Orchestrator.run_simulation` — run days
`1 .. cfg.max_days` starting from the empty world state. -/
def run_simulation (cfg : WorldConfig) (oracle : GenOracle) (retries : Nat)
    (hook : Option Hook) : RunResult :=
  runFromDay cfg oracle retries hook cfg.max_days 1
    { day := 0, conversations := [], world_rules := cfg.world_rules } 0 []

end Sim

namespace Gateway

/-- Modelled from the spec: the leaky-bucket minimum spacing between two
granted calls under `rate_limit_rpm = R` (the ceiling of `60 / R` time
units, so that `R` consecutive gaps cover at least 60 units). -/
def minInterval (R : Nat) : Nat := (60 + R - 1) / R

/-- Modelled from the spec: grant a call requested at time `now`, given
the previously granted time. The call is never rejected: it is delayed
(blocks) until the minimum spacing from the previous grant has elapsed. -/
def acquire (d : Nat) (last : Option Nat) (now : Nat) : Nat :=
  match last with
  | none => now
  | some t => max now (t + d)

/-- The granted completion times of a sequence of requested call times,
threading the limiter state. -/
def grantedTimes (d : Nat) : List Nat → Option Nat → List Nat
  | [], _ => []
  | req :: rest, last =>
    let g := acquire d last req
    g :: grantedTimes d rest (some g)

/-- Number of call times in `l` falling in the half-open interval
`[w, hi)`. -/
def countIn (w hi : Nat) (l : List Nat) : Nat :=
  l.countP (fun t => decide (w ≤ t) && decide (t < hi))

/-- Number of granted calls falling in the sliding window `[w, w + 60)`. -/
def windowCount (w : Nat) (l : List Nat) : Nat :=
  countIn w (w + 60) l

/-- The times in `l` are each at least `d` later than their predecessor
(and than `last`, when present). -/
def spacedFrom (d : Nat) : Option Nat → List Nat → Prop
  | _, [] => True
  | none, g :: rest => spacedFrom d (some g) rest
  | some t, g :: rest => t + d ≤ g ∧ spacedFrom d (some g) rest

end Gateway

/-- A two-agent, two-day, two-exchange configuration used by concrete
witnesses (the spec's walkthrough scenario). -/
def cfgW : Sim.WorldConfig :=
  { name := "w"
    agents := [{ id := "A", name := "A", identity_script := "a" },
               { id := "B", name := "B", identity_script := "b" }]
    max_days := 2
    exchanges_per_turn := 2
    world_rules := "rules" }

/-- An oracle that always succeeds with `"hi"`. -/
def oracleHi : Sim.GenOracle := fun _ => Sim.GenResult.success "hi"

/-- An oracle that is fatal from the third raw call on (day 2's first
call under `cfgW`). -/
def oracleFatalDay2 : Sim.GenOracle :=
  fun i => if i < 2 then Sim.GenResult.success "hi" else Sim.GenResult.fatal

/-- An oracle that always raises a transient error. -/
def oracleTransient : Sim.GenOracle := fun _ => Sim.GenResult.transient

/-- A progress hook that raises on every invocation. -/
def raisingHook : Sim.Hook := fun _ _ => Except.error "hook failure"

/-- A progress hook that does nothing. -/
def noopHook : Sim.Hook := fun _ _ => Except.ok ()

example : (Sim.run_simulation cfgW oracleHi 0 none).state.conversations.map (·.day) = [1, 2] := by decide
example : (Sim.run_simulation cfgW oracleHi 0 none).outcome = .completed := by decide
example : (Sim.run_simulation cfgW oracleHi 0 none).state.conversations.map
    (fun c => c.turns.map (·.speaker_id)) = [["A", "B"], ["A", "B"]] := by decide
example : (Sim.run_simulation cfgW oracleFatalDay2 0 none).state.conversations.map (·.day) = [1] := by decide
example : (Sim.run_simulation cfgW oracleFatalDay2 0 none).outcome = .abortedFatal := by decide
example : (Sim.run_simulation cfgW oracleTransient 1 none).state.conversations.map
    (fun c => c.turns.map (fun t => (t.failed, t.message))) =
    [[(true, ""), (true, "")], [(true, ""), (true, "")]] := by decide

example : Quiz.lastAnswer [] = "your path" := by decide
example : Quiz.lastAnswer ["  Order  "] = "order" := by decide
example : (Quiz._response_and_next 4 []).2 = "" := by rfl

namespace Quiz

/-- Helper: the handler's success path, for indices inside `1..4`. -/
theorem next_question_ok_eq (qi : Int) (ans : List String)
    (h : ¬(qi < 1 ∨ qi > 4)) :
    next_question (.ok qi ans) =
      .okJson { response := (_response_and_next qi ans).1,
                next_question := (_response_and_next qi ans).2,
                question_index := qi,
                is_complete := decide (qi = 4) } := by
  simp [next_question, h]

/-- Helper: every branch of `_response_and_next` produces a non-empty
short response. -/
theorem response_ne_empty (qi : Int) (ans : List String) :
    (_response_and_next qi ans).1 ≠ "" := by
  simp only [_response_and_next]
  split_ifs <;>
    simp [String.ext_iff, toString, String.append]

/-- Helper: for question indices 1, 2, 3 the next question is non-empty. -/
theorem next_q_ne_empty (qi : Int) (ans : List String)
    (h : qi = 1 ∨ qi = 2 ∨ qi = 3) :
    (_response_and_next qi ans).2 ≠ "" := by
  simp only [_response_and_next]
  rcases h with h | h | h <;> subst h <;>
    split_ifs <;>
    simp_all [String.ext_iff, toString, String.append]

/-- Helper: outside indices 1, 2, 3 (in particular at 4) the next
question is the empty string. -/
theorem next_q_empty (qi : Int) (ans : List String)
    (h1 : qi ≠ 1) (h2 : qi ≠ 2) (h3 : qi ≠ 3) :
    (_response_and_next qi ans).2 = "" := by
  simp only [_response_and_next]
  simp [h1, h2, h3]

end Quiz

/-- C8: the `/next_question` handler returns HTTP 400 with an error body
exactly when the request body failed the int/list conversions or the
parsed `question_index` lies outside `1..4`; for every `question_index`
in `1..4` it returns HTTP 200 with a JSON body carrying `response`,
`next_question`, `question_index` and `is_complete`. -/
theorem quiz_c8_next_question_status (req : Quiz.ParsedRequest) :
    ((∃ e, Quiz.next_question req = .badRequest e) ↔
      (req = .parseError ∨
        ∃ qi ans, req = .ok qi ans ∧ (qi < 1 ∨ qi > 4))) ∧
    (∀ (qi : Int) (ans : List String), req = .ok qi ans → 1 ≤ qi → qi ≤ 4 →
      Quiz.next_question req =
        .okJson { response := (Quiz._response_and_next qi ans).1,
                  next_question := (Quiz._response_and_next qi ans).2,
                  question_index := qi,
                  is_complete := decide (qi = 4) }) := by
  cases req with
  | parseError =>
    constructor
    · simp [Quiz.next_question]
    · intro qi ans hcontra
      exact absurd hcontra (by simp)
  | ok qi ans =>
    by_cases h : qi < 1 ∨ qi > 4
    · constructor
      · simp only [Quiz.next_question, if_pos h]
        constructor
        · intro _
          exact Or.inr ⟨qi, ans, rfl, h⟩
        · intro _
          exact ⟨"question_index must be 1–4", rfl⟩
      · intro qi' ans' heq h1 h4
        cases heq
        omega
    · constructor
      · simp only [Quiz.next_question, if_neg h]
        constructor
        · intro ⟨e, he⟩
          exact absurd he (by simp)
        · intro hcontra
          rcases hcontra with hc | ⟨qi', ans', heq, hout⟩
          · exact absurd hc (by simp)
          · cases heq
            exact absurd hout h
      · intro qi' ans' heq h1 h4
        cases heq
        exact Quiz.next_question_ok_eq qi ans h

/-- Witness for C8 at a concrete in-range request. -/
theorem quiz_c8_witness :
    Quiz.next_question (.ok 2 ["order"]) =
      .okJson { response := (Quiz._response_and_next 2 ["order"]).1,
                next_question := (Quiz._response_and_next 2 ["order"]).2,
                question_index := 2,
                is_complete := decide ((2 : Int) = 4) } :=
  (quiz_c8_next_question_status (.ok 2 ["order"])).2 2 ["order"] rfl
    (by decide) (by decide)

/-- C9: `_response_and_next` is total for every question index and every
answers list, including the empty one: the short response is always a
non-empty string, and the empty answers list falls back to the
placeholder "your path" instead of indexing into the list. -/
theorem quiz_c9_response_total (qi : Int) (ans : List String) :
    (Quiz._response_and_next qi ans).1 ≠ "" ∧
    (ans = [] → Quiz.lastAnswer ans = "your path" ∧
      (Quiz._response_and_next 4 ans).1 =
        "Your answer—\x27your path\x27—closes the loop. The simulation has enough to reflect your influence. Thank you for defining it.") := by
  refine ⟨Quiz.response_ne_empty qi ans, ?_⟩
  rintro rfl
  exact ⟨by decide, by rfl⟩

/-- Witness for C9 at the empty answers list. -/
theorem quiz_c9_witness :
    (Quiz._response_and_next 4 []).1 ≠ "" ∧
    (Quiz.lastAnswer [] = "your path" ∧
      (Quiz._response_and_next 4 ([] : List String)).1 =
        "Your answer—\x27your path\x27—closes the loop. The simulation has enough to reflect your influence. Thank you for defining it.") :=
  ⟨(quiz_c9_response_total 4 []).1, (quiz_c9_response_total 4 []).2 rfl⟩

/-- C10: at `question_index = 4` the next question is empty for every
answers list; for an in-range request the response body has
`is_complete = decide (question_index = 4)`, so `is_complete` is true
exactly at index 4; and for indices 1..3 the next question is non-empty
(and `is_complete` is false). -/
theorem quiz_c10_completion (qi : Int) (ans : List String)
    (h1 : 1 ≤ qi) (h4 : qi ≤ 4) :
    (Quiz._response_and_next 4 ans).2 = "" ∧
    Quiz.next_question (.ok qi ans) =
      .okJson { response := (Quiz._response_and_next qi ans).1,
                next_question := (Quiz._response_and_next qi ans).2,
                question_index := qi,
                is_complete := decide (qi = 4) } ∧
    (qi ≤ 3 → (Quiz._response_and_next qi ans).2 ≠ "" ∧ decide (qi = 4) = false) := by
  refine ⟨Quiz.next_q_empty 4 ans (by decide) (by decide) (by decide),
    Quiz.next_question_ok_eq qi ans (by omega), ?_⟩
  intro h3
  exact ⟨Quiz.next_q_ne_empty qi ans (by omega), by simp; omega⟩

namespace Sim

/-- Helper: a day's execution for a single conversation spec. -/
theorem runSpecs_singleton (oracle : GenOracle) (retries day : Nat)
    (spec : ConversationSpec) (ws : WorldState) (callIdx : Nat) :
    runSpecs oracle retries day [spec] ws callIdx =
      match runExchanges oracle retries spec.participants
          spec.exchange_count 0 callIdx [] with
      | .done turns c =>
        ({ ws with conversations := ws.conversations ++
            [{ day := day, participants := spec.participants, turns := turns }] },
         c, false)
      | .fatal c => (ws, c, true) := by
  cases h : runExchanges oracle retries spec.participants
      spec.exchange_count 0 callIdx [] with
  | done turns c => simp [runSpecs, h]
  | fatal c => simp [runSpecs, h]

/-- Helper: the run result does not depend on which hook function is
supplied, only on whether one is. -/
theorem runFromDay_hook_irrelevant (cfg : WorldConfig) (oracle : GenOracle)
    (retries : Nat) (h1 h2 : Hook) :
    ∀ (n day : Nat) (ws : WorldState) (callIdx : Nat) (trace : List Nat),
      runFromDay cfg oracle retries (some h1) n day ws callIdx trace =
      runFromDay cfg oracle retries (some h2) n day ws callIdx trace := by
  intro n
  induction n with
  | zero => intro day ws c tr; rfl
  | succ n ih =>
    intro day ws c tr
    simp only [runFromDay]
    cases hr : runSpecs oracle retries day (TurnBasedStrategy ws day cfg) ws c with
    | mk ws1 p =>
      cases p with
      | mk c2 flag =>
        cases flag
        · exact ih (day + 1) { ws1 with day := day } c2 (day :: tr)
        · rfl

/-- Helper: a finished conversation has at most as many turns as the
scheduled exchange count (plus the turns already accumulated). -/
theorem runExchanges_done_length (oracle : GenOracle) (retries : Nat)
    (ps : List String) :
    ∀ (n idx callIdx : Nat) (acc : List Turn) (turns : List Turn) (c : Nat),
      runExchanges oracle retries ps n idx callIdx acc = .done turns c →
      turns.length ≤ n + acc.length := by
  intro n
  induction n with
  | zero =>
    intro idx callIdx acc turns c h
    simp only [runExchanges] at h
    cases h
    simp
  | succ n ih =>
    intro idx callIdx acc turns c h
    simp only [runExchanges] at h
    cases hg : generateWithRetry oracle callIdx retries with
    | mk tr c2 =>
      rw [hg] at h
      cases tr with
      | ok t =>
        have := ih (idx + 1) c2
          ({ speaker_id := speakerAt ps idx, message := t,
             failed := false, timestamp := c2 } :: acc) turns c h
        simp at this
        omega
      | failedTurn =>
        have := ih (idx + 1) c2
          ({ speaker_id := speakerAt ps idx, message := "",
             failed := true, timestamp := c2 } :: acc) turns c h
        simp at this
        omega
      | fatalAbort => cases h

/-- Helper: executing a day's specs preserves the per-conversation turn
bound, provided each spec's exchange count respects it. -/
theorem runSpecs_turns_bound (oracle : GenOracle) (retries day E : Nat) :
    ∀ (specs : List ConversationSpec) (ws : WorldState) (callIdx : Nat),
      (∀ s ∈ specs, s.exchange_count ≤ E) →
      (∀ cv ∈ ws.conversations, cv.turns.length ≤ E) →
      ∀ cv ∈ (runSpecs oracle retries day specs ws callIdx).1.conversations,
        cv.turns.length ≤ E := by
  intro specs
  induction specs with
  | nil =>
    intro ws callIdx _ hws cv hcv
    exact hws cv hcv
  | cons spec rest ih =>
    intro ws callIdx hs hws cv hcv
    simp only [runSpecs] at hcv
    cases he : runExchanges oracle retries spec.participants
        spec.exchange_count 0 callIdx [] with
    | done turns c =>
      rw [he] at hcv
      refine ih _ c (fun s hsm => hs s (List.mem_cons_of_mem _ hsm)) ?_ cv hcv
      intro cv' hcv'
      rcases List.mem_append.mp hcv' with hold | hnew
      · exact hws cv' hold
      · have hlen := runExchanges_done_length oracle retries spec.participants
          spec.exchange_count 0 callIdx [] turns c he
        simp only [List.length_nil, Nat.add_zero] at hlen
        have hE : spec.exchange_count ≤ E := hs spec (List.mem_cons_self _ _)
        simp at hnew
        subst hnew
        simp
        omega
    | fatal c =>
      rw [he] at hcv
      exact hws cv hcv

/-- Helper: the day loop preserves the per-conversation turn bound. -/
theorem runFromDay_turns_bound (cfg : WorldConfig) (oracle : GenOracle)
    (retries : Nat) (hook : Option Hook) :
    ∀ (n day : Nat) (ws : WorldState) (callIdx : Nat) (trace : List Nat),
      (∀ cv ∈ ws.conversations, cv.turns.length ≤ cfg.exchanges_per_turn) →
      ∀ cv ∈ (runFromDay cfg oracle retries hook n day ws callIdx
          trace).state.conversations,
        cv.turns.length ≤ cfg.exchanges_per_turn := by
  intro n
  induction n with
  | zero => intro day ws callIdx trace hws cv hcv; exact hws cv hcv
  | succ n ih =>
    intro day ws callIdx trace hws cv hcv
    simp only [runFromDay] at hcv
    cases hr : runSpecs oracle retries day (TurnBasedStrategy ws day cfg) ws callIdx with
    | mk ws1 p =>
      have hbound : ∀ cv' ∈ ws1.conversations, cv'.turns.length ≤ cfg.exchanges_per_turn := by
        intro cv' hcv'
        have := runSpecs_turns_bound oracle retries day cfg.exchanges_per_turn
          (TurnBasedStrategy ws day cfg) ws callIdx ?_ hws cv'
        · rw [hr] at this; exact this hcv'
        · intro s hsm
          simp [TurnBasedStrategy] at hsm
          simp [hsm]
      cases p with
      | mk c2 flag =>
        rw [hr] at hcv
        cases flag
        · exact ih (day + 1) { ws1 with day := day } c2 _ hbound cv hcv
        · exact hbound cv hcv

/-- Helper: one successful day of the loop, unfolded. -/
theorem runFromDay_succ_done (cfg : WorldConfig) (oracle : GenOracle)
    (retries : Nat) (hook : Option Hook) (n day : Nat) (ws : WorldState)
    (callIdx : Nat) (trace : List Nat) (turns : List Turn) (c : Nat)
    (he : runExchanges oracle retries (cfg.agents.map (fun a => a.id))
        cfg.exchanges_per_turn 0 callIdx [] = .done turns c) :
    runFromDay cfg oracle retries hook (n + 1) day ws callIdx trace =
      runFromDay cfg oracle retries hook n (day + 1)
        { day := day
          conversations := ws.conversations ++
            [{ day := day, participants := cfg.agents.map (fun a => a.id),
               turns := turns }]
          world_rules := ws.world_rules } c
        (traceStep hook day trace) := by
  have hspec : TurnBasedStrategy ws day cfg =
      [{ participants := cfg.agents.map (fun a => a.id),
         exchange_count := cfg.exchanges_per_turn }] := rfl
  simp only [runFromDay, hspec]
  rw [runSpecs_singleton]
  dsimp only
  rw [he]
  cases hook <;> rfl

/-- Helper: a fatally aborted day of the loop, unfolded: the state is
returned as it was at the start of the day, the in-flight conversation is
discarded, and the hook is not invoked for the failing day. -/
theorem runFromDay_succ_fatal (cfg : WorldConfig) (oracle : GenOracle)
    (retries : Nat) (hook : Option Hook) (n day : Nat) (ws : WorldState)
    (callIdx : Nat) (trace : List Nat) (c : Nat)
    (he : runExchanges oracle retries (cfg.agents.map (fun a => a.id))
        cfg.exchanges_per_turn 0 callIdx [] = .fatal c) :
    runFromDay cfg oracle retries hook (n + 1) day ws callIdx trace =
      { state := ws, hookTrace := trace.reverse, outcome := .abortedFatal } := by
  have hspec : TurnBasedStrategy ws day cfg =
      [{ participants := cfg.agents.map (fun a => a.id),
         exchange_count := cfg.exchanges_per_turn }] := rfl
  simp only [runFromDay, hspec]
  rw [runSpecs_singleton]
  dsimp only
  rw [he]

/-- Helper: a completed day loop contributes exactly one conversation per
day, for the days `day, day+1, …, day+n-1` in order. -/
theorem runFromDay_completed_map (cfg : WorldConfig) (oracle : GenOracle)
    (retries : Nat) (hook : Option Hook) :
    ∀ (n day : Nat) (ws : WorldState) (callIdx : Nat) (trace : List Nat),
      (runFromDay cfg oracle retries hook n day ws callIdx trace).outcome = .completed →
      (runFromDay cfg oracle retries hook n day ws callIdx
          trace).state.conversations.map (fun cv => cv.day) =
        ws.conversations.map (fun cv => cv.day) ++ List.range' day n := by
  intro n
  induction n with
  | zero => intro day ws callIdx trace _; simp [runFromDay]
  | succ n ih =>
    intro day ws callIdx trace hout
    cases he : runExchanges oracle retries (cfg.agents.map (fun a => a.id))
        cfg.exchanges_per_turn 0 callIdx [] with
    | done turns c =>
      rw [runFromDay_succ_done cfg oracle retries hook n day ws callIdx trace
        turns c he] at hout ⊢
      rw [ih (day + 1) _ c (traceStep hook day trace) hout]
      simp [List.range'_succ]
    | fatal c =>
      rw [runFromDay_succ_fatal cfg oracle retries hook n day ws callIdx trace
        c he] at hout
      cases hout

/-- Helper: a fatally aborted day loop keeps exactly the conversations of
the completed days before the failing one. -/
theorem runFromDay_aborted_map (cfg : WorldConfig) (oracle : GenOracle)
    (retries : Nat) (hook : Option Hook) :
    ∀ (n day : Nat) (ws : WorldState) (callIdx : Nat) (trace : List Nat),
      (runFromDay cfg oracle retries hook n day ws callIdx trace).outcome = .abortedFatal →
      ∃ k, k < n ∧
        (runFromDay cfg oracle retries hook n day ws callIdx
            trace).state.conversations.map (fun cv => cv.day) =
          ws.conversations.map (fun cv => cv.day) ++ List.range' day k := by
  intro n
  induction n with
  | zero =>
    intro day ws callIdx trace hout
    cases hout
  | succ n ih =>
    intro day ws callIdx trace hout
    cases he : runExchanges oracle retries (cfg.agents.map (fun a => a.id))
        cfg.exchanges_per_turn 0 callIdx [] with
    | done turns c =>
      rw [runFromDay_succ_done cfg oracle retries hook n day ws callIdx trace
        turns c he] at hout ⊢
      rcases ih (day + 1) _ c (traceStep hook day trace) hout with ⟨k, hk, hmap⟩
      refine ⟨k + 1, by omega, ?_⟩
      rw [hmap]
      simp [List.range'_succ]
    | fatal c =>
      rw [runFromDay_succ_fatal cfg oracle retries hook n day ws callIdx trace
        c he]
      exact ⟨0, by omega, by simp⟩

/-- Helper: exhausting the retry budget on transient errors yields a
failed turn after `retries + 1` raw calls. -/
theorem generateWithRetry_transient_exhaust (oracle : GenOracle) :
    ∀ (retries callIdx : Nat),
      (∀ j, j ≤ retries → oracle (callIdx + j) = .transient) →
      generateWithRetry oracle callIdx retries =
        (.failedTurn, callIdx + retries + 1) := by
  intro retries
  induction retries with
  | zero =>
    intro callIdx h
    have h0 := h 0 (by omega)
    simp only [Nat.add_zero] at h0
    simp [generateWithRetry, h0]
  | succ r ih =>
    intro callIdx h
    have h0 := h 0 (by omega)
    simp only [Nat.add_zero] at h0
    simp only [generateWithRetry, h0]
    have hrec := ih (callIdx + 1) (fun j hj => by
      have hh := h (j + 1) (by omega)
      rw [show callIdx + 1 + j = callIdx + (j + 1) from by omega]
      exact hh)
    rw [hrec]
    simp only [Prod.mk.injEq]
    exact ⟨by trivial, by omega⟩

/-- Helper: a fatal provider error propagates on the very first raw call,
regardless of the remaining retry budget. -/
theorem generateWithRetry_fatal (oracle : GenOracle) (callIdx retries : Nat)
    (h : oracle callIdx = .fatal) :
    generateWithRetry oracle callIdx retries = (.fatalAbort, callIdx + 1) := by
  cases retries <;> simp [generateWithRetry, h]

/-- Helper: a turn whose retries were exhausted is appended as
`failed := true` with an empty message, and the conversation continues
with the remaining exchanges. -/
theorem runExchanges_failed_step (oracle : GenOracle) (retries : Nat)
    (ps : List String) (n idx callIdx c2 : Nat) (acc : List Turn)
    (h : generateWithRetry oracle callIdx retries = (.failedTurn, c2)) :
    runExchanges oracle retries ps (n + 1) idx callIdx acc =
      runExchanges oracle retries ps n (idx + 1) c2
        ({ speaker_id := speakerAt ps idx, message := "",
           failed := true, timestamp := c2 } :: acc) := by
  simp only [runExchanges]
  rw [h]

end Sim

/-- C1: for a completed (non-aborted) run with `max_days = D`, the
conversations of the returned world state, projected to their `day`
field, are exactly the days `1, 2, …, D` in increasing order with no
gaps. -/
theorem sim_c1_days_cover (cfg : Sim.WorldConfig) (oracle : Sim.GenOracle)
    (retries : Nat) (hook : Option Sim.Hook)
    (h : (Sim.run_simulation cfg oracle retries hook).outcome = .completed) :
    (Sim.run_simulation cfg oracle retries hook).state.conversations.map
        (fun cv => cv.day) = List.range' 1 cfg.max_days := by
  have := Sim.runFromDay_completed_map cfg oracle retries hook cfg.max_days 1
    { day := 0, conversations := [], world_rules := cfg.world_rules } 0 [] h
  simpa [Sim.run_simulation] using this

/-- Witness for C1: the concrete two-day run covers days `[1, 2]`. -/
theorem sim_c1_witness :
    (Sim.run_simulation cfgW oracleHi 0 none).state.conversations.map
        (fun cv => cv.day) = List.range' 1 cfgW.max_days :=
  sim_c1_days_cover cfgW oracleHi 0 none (by decide)

/-- C2: every conversation in the world state produced by a run under
`exchanges_per_turn = E` has at most `E` turns. -/
theorem sim_c2_turns_le (cfg : Sim.WorldConfig) (oracle : Sim.GenOracle)
    (retries : Nat) (hook : Option Sim.Hook) (cv : Sim.Conversation)
    (hcv : cv ∈ (Sim.run_simulation cfg oracle retries hook).state.conversations) :
    cv.turns.length ≤ cfg.exchanges_per_turn := by
  exact Sim.runFromDay_turns_bound cfg oracle retries hook cfg.max_days 1
    { day := 0, conversations := [], world_rules := cfg.world_rules } 0 []
    (by intro cv' hcv'; cases hcv') cv hcv

/-- Witness for C2: the day-1 conversation of the concrete two-day run. -/
theorem sim_c2_witness :
    ({ day := 1, participants := ["A", "B"],
       turns := [{ speaker_id := "A", message := "hi", failed := false, timestamp := 1 },
                 { speaker_id := "B", message := "hi", failed := false, timestamp := 2 }] } :
      Sim.Conversation).turns.length ≤ cfgW.exchanges_per_turn :=
  sim_c2_turns_le cfgW oracleHi 0 none _ (by decide)

/-- C3: on transient errors the gateway retries up to the configured
bound and then reports a failed turn, which the orchestrator records as
`failed := true` with an empty message while the conversation continues;
on a fatal error the gateway gives up after the single raw call, and an
aborted run returns the conversations of the completed days only — the
failing day contributes no partial conversation. -/
theorem sim_c3_error_handling :
    (∀ (oracle : Sim.GenOracle) (retries callIdx : Nat),
      (∀ j, j ≤ retries → oracle (callIdx + j) = .transient) →
      Sim.generateWithRetry oracle callIdx retries =
        (.failedTurn, callIdx + retries + 1)) ∧
    (∀ (oracle : Sim.GenOracle) (callIdx retries : Nat),
      oracle callIdx = .fatal →
      Sim.generateWithRetry oracle callIdx retries =
        (.fatalAbort, callIdx + 1)) ∧
    (∀ (oracle : Sim.GenOracle) (retries : Nat) (ps : List String)
      (n idx callIdx c2 : Nat) (acc : List Sim.Turn),
      Sim.generateWithRetry oracle callIdx retries = (.failedTurn, c2) →
      Sim.runExchanges oracle retries ps (n + 1) idx callIdx acc =
        Sim.runExchanges oracle retries ps n (idx + 1) c2
          ({ speaker_id := Sim.speakerAt ps idx, message := "",
             failed := true, timestamp := c2 } :: acc)) ∧
    (∀ (cfg : Sim.WorldConfig) (oracle : Sim.GenOracle) (retries : Nat)
      (hook : Option Sim.Hook),
      (Sim.run_simulation cfg oracle retries hook).outcome = .abortedFatal →
      ∃ k, k < cfg.max_days ∧
        (Sim.run_simulation cfg oracle retries hook).state.conversations.map
            (fun cv => cv.day) = List.range' 1 k) := by
  refine ⟨?_, ?_, ?_, ?_⟩
  · intro oracle retries callIdx h
    exact Sim.generateWithRetry_transient_exhaust oracle retries callIdx h
  · intro oracle callIdx retries h
    exact Sim.generateWithRetry_fatal oracle callIdx retries h
  · intro oracle retries ps n idx callIdx c2 acc h
    exact Sim.runExchanges_failed_step oracle retries ps n idx callIdx c2 acc h
  · intro cfg oracle retries hook h
    rcases Sim.runFromDay_aborted_map cfg oracle retries hook cfg.max_days 1
      { day := 0, conversations := [], world_rules := cfg.world_rules } 0 [] h
      with ⟨k, hk, hmap⟩
    exact ⟨k, hk, by simpa [Sim.run_simulation] using hmap⟩

/-- Witness for C3: concrete transient exhaustion, fatal propagation,
failed-turn recording, and the day-2 fatal abort scenario. -/
theorem sim_c3_witness :
    Sim.generateWithRetry oracleTransient 0 2 = (.failedTurn, 3) ∧
    Sim.generateWithRetry oracleFatalDay2 2 5 = (.fatalAbort, 3) ∧
    Sim.runExchanges oracleTransient 0 ["A"] 1 0 0 [] =
      Sim.runExchanges oracleTransient 0 ["A"] 0 1 1
        [{ speaker_id := Sim.speakerAt ["A"] 0, message := "",
           failed := true, timestamp := 1 }] ∧
    (∃ k, k < cfgW.max_days ∧
      (Sim.run_simulation cfgW oracleFatalDay2 0 none).state.conversations.map
          (fun cv => cv.day) = List.range' 1 k) :=
  ⟨sim_c3_error_handling.1 oracleTransient 2 0 (fun j _ => rfl),
   sim_c3_error_handling.2.1 oracleFatalDay2 2 5 rfl,
   sim_c3_error_handling.2.2.1 oracleTransient 0 ["A"] 0 0 0 1 [] rfl,
   sim_c3_error_handling.2.2.2 cfgW oracleFatalDay2 0 none (by decide)⟩

/-- C5: `TurnBasedStrategy` is a deterministic pure function of
`(WorldState, day, WorldConfig)`: identical inputs give identical ordered
conversation specs, and its output is in fact independent of the
WorldState argument — in particular independent of any text-generation
output, which reaches the strategy only through the WorldState. -/
theorem sim_c5_strategy_deterministic (s1 s2 : Sim.WorldState) (day : Nat)
    (cfg : Sim.WorldConfig) :
    Sim.TurnBasedStrategy s1 day cfg = Sim.TurnBasedStrategy s1 day cfg ∧
    Sim.TurnBasedStrategy s1 day cfg = Sim.TurnBasedStrategy s2 day cfg :=
  ⟨rfl, rfl⟩

/-- C4: a run whose progress hook raises on every invocation produces
exactly the same conversations as the same run with a no-op hook, from
identical generation outputs (the same oracle): hook errors are caught
at the call site and never reach scheduling or state. -/
theorem sim_c4_hook_isolated (cfg : Sim.WorldConfig) (oracle : Sim.GenOracle)
    (retries : Nat) :
    (Sim.run_simulation cfg oracle retries (some raisingHook)).state.conversations =
    (Sim.run_simulation cfg oracle retries (some noopHook)).state.conversations := by
  unfold Sim.run_simulation
  rw [Sim.runFromDay_hook_irrelevant cfg oracle retries raisingHook noopHook]

namespace Sim

/-- Helper: with no hook supplied, the day loop never records a hook
invocation. -/
theorem runFromDay_trace_none (cfg : WorldConfig) (oracle : GenOracle)
    (retries : Nat) :
    ∀ (n day : Nat) (ws : WorldState) (callIdx : Nat) (trace : List Nat),
      (runFromDay cfg oracle retries none n day ws callIdx trace).hookTrace =
        trace.reverse := by
  intro n
  induction n with
  | zero => intro day ws callIdx trace; rfl
  | succ n ih =>
    intro day ws callIdx trace
    cases he : runExchanges oracle retries (cfg.agents.map (fun a => a.id))
        cfg.exchanges_per_turn 0 callIdx [] with
    | done turns c =>
      rw [runFromDay_succ_done cfg oracle retries none n day ws callIdx trace
        turns c he]
      exact ih (day + 1) _ c trace
    | fatal c =>
      rw [runFromDay_succ_fatal cfg oracle retries none n day ws callIdx trace
        c he]

/-- Helper: with a hook supplied, the loop records one invocation per
completed day, in increasing day order; `state.day` counts the completed
days. -/
theorem runFromDay_trace_some (cfg : WorldConfig) (oracle : GenOracle)
    (retries : Nat) (h : Hook) :
    ∀ (n day : Nat) (ws : WorldState) (callIdx : Nat) (trace : List Nat),
      ws.day + 1 = day →
      ws.day ≤ (runFromDay cfg oracle retries (some h) n day ws callIdx
          trace).state.day ∧
      (runFromDay cfg oracle retries (some h) n day ws callIdx
          trace).state.day ≤ ws.day + n ∧
      (runFromDay cfg oracle retries (some h) n day ws callIdx
          trace).hookTrace =
        trace.reverse ++ List.range' day
          ((runFromDay cfg oracle retries (some h) n day ws callIdx
              trace).state.day + 1 - day) ∧
      ((runFromDay cfg oracle retries (some h) n day ws callIdx
          trace).outcome = .completed →
        (runFromDay cfg oracle retries (some h) n day ws callIdx
            trace).state.day = ws.day + n) := by
  intro n
  induction n with
  | zero =>
    intro day ws callIdx trace hday
    simp only [runFromDay]
    refine ⟨le_refl _, by omega, ?_, fun _ => by omega⟩
    rw [show ws.day + 1 - day = 0 from by omega]
    simp
  | succ n ih =>
    intro day ws callIdx trace hday
    cases he : runExchanges oracle retries (cfg.agents.map (fun a => a.id))
        cfg.exchanges_per_turn 0 callIdx [] with
    | fatal c =>
      rw [runFromDay_succ_fatal cfg oracle retries (some h) n day ws callIdx
        trace c he]
      dsimp only
      refine ⟨le_refl _, by omega, ?_, by simp⟩
      rw [show ws.day + 1 - day = 0 from by omega]
      simp
    | done turns c =>
      rw [runFromDay_succ_done cfg oracle retries (some h) n day ws callIdx
        trace turns c he]
      rcases ih (day + 1)
        { day := day
          conversations := ws.conversations ++
            [{ day := day, participants := cfg.agents.map (fun a => a.id),
               turns := turns }]
          world_rules := ws.world_rules } c
        (traceStep (some h) day trace) rfl with ⟨h1, h2, h3, h4⟩
      have h1' : day ≤ (runFromDay cfg oracle retries (some h) n (day + 1)
          { day := day
            conversations := ws.conversations ++
              [{ day := day, participants := cfg.agents.map (fun a => a.id),
                 turns := turns }]
            world_rules := ws.world_rules } c
          (traceStep (some h) day trace)).state.day := h1
      have h2' : (runFromDay cfg oracle retries (some h) n (day + 1)
          { day := day
            conversations := ws.conversations ++
              [{ day := day, participants := cfg.agents.map (fun a => a.id),
                 turns := turns }]
            world_rules := ws.world_rules } c
          (traceStep (some h) day trace)).state.day ≤ day + n := h2
      refine ⟨by omega, by omega, ?_, fun hc => ?_⟩
      · rw [h3]
        have hm : (runFromDay cfg oracle retries (some h) n (day + 1)
            { day := day
              conversations := ws.conversations ++
                [{ day := day, participants := cfg.agents.map (fun a => a.id),
                   turns := turns }]
              world_rules := ws.world_rules } c
            (traceStep (some h) day trace)).state.day + 1 - (day + 1) =
            (runFromDay cfg oracle retries (some h) n (day + 1)
              { day := day
                conversations := ws.conversations ++
                  [{ day := day, participants := cfg.agents.map (fun a => a.id),
                     turns := turns }]
                world_rules := ws.world_rules } c
              (traceStep (some h) day trace)).state.day - day := by omega
        have hm2 : (runFromDay cfg oracle retries (some h) n (day + 1)
            { day := day
              conversations := ws.conversations ++
                [{ day := day, participants := cfg.agents.map (fun a => a.id),
                   turns := turns }]
              world_rules := ws.world_rules } c
            (traceStep (some h) day trace)).state.day + 1 - day =
            ((runFromDay cfg oracle retries (some h) n (day + 1)
              { day := day
                conversations := ws.conversations ++
                  [{ day := day, participants := cfg.agents.map (fun a => a.id),
                     turns := turns }]
                world_rules := ws.world_rules } c
              (traceStep (some h) day trace)).state.day - day) + 1 := by omega
        rw [hm, hm2, List.range'_succ]
        show (day :: trace).reverse ++ _ = _
        rw [List.reverse_cons, List.append_assoc]
        simp
      · have h4' := h4 hc
        have : (runFromDay cfg oracle retries (some h) n (day + 1)
            { day := day
              conversations := ws.conversations ++
                [{ day := day, participants := cfg.agents.map (fun a => a.id),
                   turns := turns }]
              world_rules := ws.world_rules } c
            (traceStep (some h) day trace)).state.day = day + n := h4'
        omega

end Sim

/-- C6: with a hook supplied, the hook is invoked exactly once per
completed day in strictly increasing day order — the recorded invocation
trace is `[1, 2, …, k]` where `k = state.day` is the number of completed
days, `k ≤ max_days`, and `k = max_days` when the run completes; with no
hook supplied there are no invocations. A fatally-aborted day is not in
the trace. -/
theorem sim_c6_hook_per_day (cfg : Sim.WorldConfig) (oracle : Sim.GenOracle)
    (retries : Nat) (h : Sim.Hook) :
    (Sim.run_simulation cfg oracle retries none).hookTrace = [] ∧
    (Sim.run_simulation cfg oracle retries (some h)).hookTrace =
      List.range' 1 (Sim.run_simulation cfg oracle retries (some h)).state.day ∧
    (Sim.run_simulation cfg oracle retries (some h)).state.day ≤ cfg.max_days ∧
    ((Sim.run_simulation cfg oracle retries (some h)).outcome = .completed →
      (Sim.run_simulation cfg oracle retries (some h)).state.day =
        cfg.max_days) := by
  have hnone := Sim.runFromDay_trace_none cfg oracle retries cfg.max_days 1
    { day := 0, conversations := [], world_rules := cfg.world_rules } 0 []
  have hsome := Sim.runFromDay_trace_some cfg oracle retries h cfg.max_days 1
    { day := 0, conversations := [], world_rules := cfg.world_rules } 0 [] rfl
  rcases hsome with ⟨_, h2, h3, h4⟩
  refine ⟨by simpa [Sim.run_simulation] using hnone, ?_, ?_, ?_⟩
  · rw [show (Sim.run_simulation cfg oracle retries (some h)) =
      Sim.runFromDay cfg oracle retries (some h) cfg.max_days 1
        { day := 0, conversations := [], world_rules := cfg.world_rules } 0 []
      from rfl]
    rw [h3]
    simp
  · have hle : (Sim.runFromDay cfg oracle retries (some h) cfg.max_days 1
        { day := 0, conversations := [], world_rules := cfg.world_rules } 0
        []).state.day ≤ 0 + cfg.max_days := h2
    simpa [Sim.run_simulation] using hle
  · intro hc
    have heq : (Sim.runFromDay cfg oracle retries (some h) cfg.max_days 1
        { day := 0, conversations := [], world_rules := cfg.world_rules } 0
        []).state.day = 0 + cfg.max_days := h4 hc
    simpa [Sim.run_simulation] using heq

/-- Witness for C6: the concrete two-day run invokes the hook on days
`[1, 2]` and never without a hook. -/
theorem sim_c6_witness :
    (Sim.run_simulation cfgW oracleHi 0 none).hookTrace = [] ∧
    (Sim.run_simulation cfgW oracleHi 0 (some noopHook)).hookTrace =
      List.range' 1 (Sim.run_simulation cfgW oracleHi 0 (some noopHook)).state.day ∧
    (Sim.run_simulation cfgW oracleHi 0 (some noopHook)).state.day ≤ cfgW.max_days ∧
    (Sim.run_simulation cfgW oracleHi 0 (some noopHook)).state.day = cfgW.max_days :=
  ⟨(sim_c6_hook_per_day cfgW oracleHi 0 noopHook).1,
   (sim_c6_hook_per_day cfgW oracleHi 0 noopHook).2.1,
   (sim_c6_hook_per_day cfgW oracleHi 0 noopHook).2.2.1,
   (sim_c6_hook_per_day cfgW oracleHi 0 noopHook).2.2.2 (by decide)⟩

namespace Gateway

/-- Helper: `countIn` over a cons step. -/
theorem countIn_cons (w hi g : Nat) (rest : List Nat) :
    countIn w hi (g :: rest) =
      countIn w hi rest + (if w ≤ g ∧ g < hi then 1 else 0) := by
  by_cases h1 : w ≤ g <;> by_cases h2 : g < hi <;>
    simp [countIn, List.countP_cons, h1, h2]

/-- Helper: the granted times respect the minimum spacing `d`. -/
theorem spacedFrom_granted (d : Nat) :
    ∀ (reqs : List Nat) (last : Option Nat),
      spacedFrom d last (grantedTimes d reqs last) := by
  intro reqs
  induction reqs with
  | nil => intro last; cases last <;> trivial
  | cons req rest ih =>
    intro last
    cases last with
    | none =>
      show spacedFrom d (some (acquire d none req))
        (grantedTimes d rest (some (acquire d none req)))
      exact ih (some (acquire d none req))
    | some t =>
      refine ⟨le_max_right _ _, ?_⟩
      exact ih (some (acquire d (some t) req))

/-- Helper: after a call granted at time `t`, at most `k` of the later
spaced calls can be granted before `t + k*d + d`. -/
theorem countIn_le_of_spaced (d : Nat) (hd : 0 < d) :
    ∀ (l : List Nat) (t k w hi : Nat),
      spacedFrom d (some t) l →
      hi ≤ t + k * d + d →
      countIn w hi l ≤ k := by
  intro l
  induction l with
  | nil => intro t k w hi _ _; simp [countIn]
  | cons g rest ih =>
    intro t k w hi hsp hhi
    rcases hsp with ⟨htg, hrest⟩
    rw [countIn_cons]
    by_cases hg : w ≤ g ∧ g < hi
    · rw [if_pos hg]
      have hk : 1 ≤ k := by
        by_contra hk0
        push_neg at hk0
        have hk00 : k = 0 := by omega
        subst hk00
        simp only [Nat.zero_mul, Nat.zero_add] at hhi
        omega
      obtain ⟨k', rfl⟩ : ∃ k', k = k' + 1 := ⟨k - 1, by omega⟩
      have hmul : (k' + 1) * d = k' * d + d := Nat.succ_mul k' d
      have := ih g k' w hi hrest (by omega)
      omega
    · rw [if_neg hg, Nat.add_zero]
      exact ih g k w hi hrest (by omega)

/-- Helper: any sequence of times with spacing `d` has at most `R` entries
in any window of length 60, provided `R` gaps cover the window. -/
theorem windowCount_le (d R : Nat) (hd : 0 < d) (hRd : 60 ≤ R * d)
    (hR : 0 < R) :
    ∀ (l : List Nat) (last : Option Nat), spacedFrom d last l →
      ∀ w, windowCount w l ≤ R := by
  intro l
  induction l with
  | nil => intro last _ w; simp [windowCount, countIn]
  | cons g rest ih =>
    intro last hsp w
    have hrest : spacedFrom d (some g) rest := by
      cases last with
      | none => exact hsp
      | some t => exact hsp.2
    rw [windowCount, countIn_cons]
    by_cases hg : w ≤ g ∧ g < w + 60
    · rw [if_pos hg]
      have hmul : (R - 1) * d + d = R * d := by
        have hRR : R - 1 + 1 = R := by omega
        calc (R - 1) * d + d = ((R - 1) + 1) * d := (Nat.succ_mul _ _).symm
          _ = R * d := by rw [hRR]
      have hcount : countIn w (w + 60) rest ≤ R - 1 :=
        countIn_le_of_spaced d hd rest g (R - 1) w (w + 60) hrest (by omega)
      omega
    · rw [if_neg hg, Nat.add_zero]
      have := ih (some g) hrest w
      simpa [windowCount] using this

/-- Helper: a granted call never completes earlier than it was requested
(the limiter delays, it never rejects). -/
theorem granted_ge_requested (d : Nat) :
    ∀ (reqs : List Nat) (last : Option Nat),
      List.Forall₂ (fun req g => req ≤ g) reqs (grantedTimes d reqs last) := by
  intro reqs
  induction reqs with
  | nil => intro last; exact List.Forall₂.nil
  | cons req rest ih =>
    intro last
    refine List.Forall₂.cons ?_ (ih (some (acquire d last req)))
    cases last with
    | none => exact le_refl _
    | some t => exact le_max_left _ _

/-- Helper: the minimum spacing is positive. -/
theorem minInterval_pos (R : Nat) (hR : 0 < R) : 0 < minInterval R := by
  unfold minInterval
  exact Nat.div_pos (by omega) hR

/-- Helper: `R` gaps of the minimum spacing cover a 60-unit window. -/
theorem minInterval_mul (R : Nat) (hR : 0 < R) : 60 ≤ R * minInterval R := by
  unfold minInterval
  have hdm := Nat.div_add_mod (60 + R - 1) R
  have hlt : (60 + R - 1) % R < R := Nat.mod_lt _ hR
  omega

end Gateway

/-- C7: under `rate_limit_rpm = R`, no sliding 60-unit window of the
granted completion times contains more than `R` calls, and every call is
granted (delayed to a time no earlier than requested) rather than
rejected. -/
theorem gw_c7_rate_limit (R : Nat) (reqs : List Nat) (w : Nat) (hR : 0 < R) :
    Gateway.windowCount w
      (Gateway.grantedTimes (Gateway.minInterval R) reqs none) ≤ R ∧
    List.Forall₂ (fun req g => req ≤ g) reqs
      (Gateway.grantedTimes (Gateway.minInterval R) reqs none) := by
  refine ⟨?_, Gateway.granted_ge_requested _ reqs none⟩
  exact Gateway.windowCount_le (Gateway.minInterval R) R
    (Gateway.minInterval_pos R hR) (Gateway.minInterval_mul R hR) hR
    (Gateway.grantedTimes (Gateway.minInterval R) reqs none) none
    (Gateway.spacedFrom_granted _ reqs none) w

/-- Witness for C7: four immediate requests at `R = 2` stay within the
budget. -/
theorem gw_c7_witness :
    Gateway.windowCount 0
      (Gateway.grantedTimes (Gateway.minInterval 2) [0, 0, 0, 0] none) ≤ 2 ∧
    List.Forall₂ (fun req g => req ≤ g) [0, 0, 0, 0]
      (Gateway.grantedTimes (Gateway.minInterval 2) [0, 0, 0, 0] none) :=
  gw_c7_rate_limit 2 [0, 0, 0, 0] 0 (by decide)

/-- Witness for C10 at `question_index = 3`. -/
theorem quiz_c10_witness :
    (Quiz._response_and_next 4 ["x"]).2 = "" ∧
    Quiz.next_question (.ok 3 ["x"]) =
      .okJson { response := (Quiz._response_and_next 3 ["x"]).1,
                next_question := (Quiz._response_and_next 3 ["x"]).2,
                question_index := 3,
                is_complete := decide ((3 : Int) = 4) } ∧
    ((Quiz._response_and_next 3 ["x"]).2 ≠ "" ∧ decide ((3 : Int) = 4) = false) :=
  ⟨(quiz_c10_completion 3 ["x"] (by decide) (by decide)).1,
   (quiz_c10_completion 3 ["x"] (by decide) (by decide)).2.1,
   (quiz_c10_completion 3 ["x"] (by decide) (by decide)).2.2 (by decide)⟩
